import Mathlib

/-!
Verification of `radiorec.py` (monofox/radiorec) against its natural-language
specification.

The source is shallowly embedded:

* `parse_icy` (radiorec.py lines 69-79) is embedded over `List Char`.  The
  Python function splits the raw byte block on `b';'` and then UTF-8 decodes
  each field; since the byte 0x3B never occurs inside a multi-byte UTF-8
  sequence, splitting the decoded text on the character `;` is equivalent on
  valid UTF-8 input.  A field without `=` makes Python raise `ValueError`
  (unpacking a 1-element list); this is the `.error .malformedField` case.
* The header phase of `record_worker` (lines 82-134) is embedded as
  `setupSession`; HTTP response headers are an association list of
  name/value pairs (duplicate header names are modelled as
  first-occurrence lookup, matching `email.message.Message.get`).
* One metadata step of the demux loop (lines 144-158) is `metadataPhase`.
* The close/flush behaviour on leaving the streaming loop (the `with` block
  at line 136 and the explicit flush/close at lines 160-162) is `teardown`.
* The supervisor / cancellation flag (`threading.Event`, lines 185-194) is
  `eventSet` on a `CaptureSystem`.
-/

/-- A decoded text block, as a list of characters (Python `str`). -/
abbrev Chars := List Char

/-- Python whitespace for `str.strip()` (the ASCII whitespace characters). -/
def pyIsSpace (c : Char) : Bool :=
  c = ' ' || c = '\t' || c = '\n' || c = '\r' || c = '\x0b' || c = '\x0c'

/-- Python `s.strip()`: drop leading and trailing whitespace. -/
def pyStrip (s : Chars) : Chars :=
  ((s.dropWhile pyIsSpace).reverse.dropWhile pyIsSpace).reverse

/-- Python `s[1:-1]`: drop the first and the last character (empty when the
length is at most 2). -/
def slice1m1 (s : Chars) : Chars :=
  (s.drop 1).dropLast

/-- Python `metadata.split(b';')` (radiorec.py line 72): split on every `;`,
keeping empty fields; the split of the empty input is one empty field. -/
def splitOnSemi : Chars → List Chars
  | [] => [[]]
  | c :: cs =>
    if c = ';' then [] :: splitOnSemi cs
    else
      match splitOnSemi cs with
      | [] => [[c]]
      | f :: r => (c :: f) :: r

/-- Python `var.split('=', 1)` followed by unpacking into two variables
(radiorec.py line 74): split at the first `=`; `none` when there is no `=`,
in which case Python raises `ValueError`. -/
def splitFirstEq : Chars → Option (Chars × Chars)
  | [] => none
  | c :: cs =>
    if c = '=' then some ([], cs)
    else (splitFirstEq cs).map (fun p => (c :: p.1, p.2))

/-- The error raised out of `parse_icy`: a field with no `=`
(Python `ValueError` at line 74). -/
inductive IcyError where
  | malformedField
deriving DecidableEq

/-- Python `dta[varName] = varValue` on a `dict` (radiorec.py line 77):
overwrite in place when the key exists, otherwise append (insertion order). -/
def dictInsert (d : List (Chars × Chars)) (k v : Chars) : List (Chars × Chars) :=
  if d.any (fun p => p.1 = k) then
    d.map (fun p => if p.1 = k then (k, v) else p)
  else d ++ [(k, v)]

/-- The loop body of `parse_icy` (radiorec.py lines 72-77), folded over the
fields produced by the split: empty fields are skipped; each non-empty field
is split at the first `=` (no `=` raises), the raw value is stripped of
surrounding whitespace and then positionally stripped of its first and last
characters, and the pair is inserted into the dict. -/
def parseFields (dta : List (Chars × Chars)) :
    List Chars → Except IcyError (List (Chars × Chars))
  | [] => .ok dta
  | f :: fs =>
    if f.isEmpty then parseFields dta fs
    else
      match splitFirstEq f with
      | none => .error .malformedField
      | some (k, v) => parseFields (dictInsert dta k (slice1m1 (pyStrip v))) fs

/-- `parse_icy` (radiorec.py lines 69-79). -/
def parse_icy (metadata : Chars) : Except IcyError (List (Chars × Chars)) :=
  parseFields [] (splitOnSemi metadata)

/-- `parse_icy` on Lean strings, for stating concrete examples. -/
def parse_icyStr (s : String) : Except IcyError (List (String × String)) :=
  (parse_icy s.data).map (fun d => d.map (fun p => (String.mk p.1, String.mk p.2)))

/-- Modelled from the spec (§8, testable property): the ICY encoder for the
round-trip law, one field per pair in the form key=(quote)value(quote)
followed by a semicolon, concatenated in order.  This definition follows the
words of the spec; `parse_icy` above follows the source. -/
def encodePair (k v : Chars) : Chars :=
  k ++ '=' :: '\'' :: (v ++ ['\'', ';'])

/-- Modelled from the spec (§8): encode a whole mapping by concatenating the
encoded pairs in order. -/
def encodeIcy (m : List (Chars × Chars)) : Chars :=
  (m.map (fun p => encodePair p.1 p.2)).flatten

/-- Errors the header phase of `record_worker` can raise or exit with. -/
inductive PyError where
  | unsupportedFormat
  | typeError
  | valueError
deriving DecidableEq

/-- HTTP response headers as an association list of name/value pairs, in the
order the server sent them. -/
abbrev Headers := List (String × String)

/-- ASCII lowercase of one character (HTTP header names are ASCII, so this
matches Python `str.lower()` on them). -/
def pyLowerChar (c : Char) : Char :=
  if 'A' ≤ c ∧ c ≤ 'Z' then Char.ofNat (c.toNat + 32) else c

/-- ASCII lowercase of a string. -/
def pyLower (s : String) : String :=
  String.mk (s.data.map pyLowerChar)

/-- `pat.beginsWith s`: does `s` start with `pat`?  (Python `str.startswith`.) -/
def beginsWith : Chars → Chars → Bool
  | [], _ => true
  | _ :: _, [] => false
  | p :: ps, c :: cs => p = c && beginsWith ps cs

/-- `conn.getheader(name)`: case-insensitive lookup of the first header with
the given name (per `email.message.Message.get`), `none` when absent. -/
def getheader (hs : Headers) (name : String) : Option String :=
  (hs.find? (fun p => pyLower p.1 = pyLower name)).map Prod.snd

/-- radiorec.py line 114: the names of all response headers whose name starts
(case-insensitively) with icy-, kept in their original spelling. -/
def icy_header_keys (hs : Headers) : List String :=
  (hs.filter (fun p => beginsWith "icy-".data (pyLower p.1).data)).map Prod.fst

/-- Digit-string to number, `none` when empty or any non-digit occurs. -/
def parseDigits (cs : Chars) : Option Nat :=
  if cs.isEmpty then none
  else
    cs.foldl
      (fun acc c =>
        match acc with
        | none => none
        | some n => if c.isDigit then some (n * 10 + (c.toNat - 48)) else none)
      (some 0)

/-- Python `int(s)` on a string: optional surrounding whitespace, optional
sign, then decimal digits; `none` models the `ValueError` Python raises on
anything else. -/
def pyInt (s : String) : Option Int :=
  match pyStrip s.data with
  | '-' :: rest => (parseDigits rest).map (fun n => -(n : Int))
  | '+' :: rest => (parseDigits rest).map (fun n => (n : Int))
  | t => (parseDigits t).map (fun n => (n : Int))

/-- radiorec.py lines 99-111: map the `Content-Type` header to the output
file extension.  The result also records whether the unknown-content-type
warning was printed.  With no `Content-Type` header Python reaches the final
`else` branch with `content_type = None` and the string concatenation in the
warning raises `TypeError`. -/
def resolveContentType (content_type : Option String) :
    Except PyError (String × Bool) :=
  if content_type = some "audio/mpeg" then .ok (".mp3", false)
  else if content_type = some "application/aacp" ∨ content_type = some "audio/aacp"
      ∨ content_type = some "audio/aac" then .ok (".aac", false)
  else if content_type = some "application/ogg" ∨ content_type = some "audio/ogg" then
    .ok (".ogg", false)
  else if content_type = some "audio/x-mpegurl" then .error .unsupportedFormat
  else
    match content_type with
    | some _ => .ok (".mp3", true)
    | none => .error .typeError

/-- radiorec.py lines 117-120: `icyMetaint` is `int(conn.getheader('icy-metaint'))`
when `args.icy` holds and the exact name icy-metaint occurs among the
icy- header names, `None` (modelled `.ok none`) when `args.icy` holds but the
name does not occur, and `0` when `args.icy` is false.  A non-numeric header
value raises `ValueError`. -/
def icyMetaintOf (icy : Bool) (hs : Headers) : Except PyError (Option Int) :=
  if icy then
    if (icy_header_keys hs).contains "icy-metaint" then
      match getheader hs "icy-metaint" with
      | none => .error .typeError
      | some s =>
        match pyInt s with
        | none => .error .valueError
        | some v => .ok (some v)
    else .ok none
  else .ok (some 0)

/-- Python truthiness of `icyMetaint` (`None` or `int`): `None` and `0` are
falsy, every other integer is truthy. -/
def pyTruthy : Option Int → Bool
  | none => false
  | some v => decide (v ≠ 0)

/-- The session configuration computed by the header phase of
`record_worker`. -/
structure SessionSetup where
  ext : String
  ctWarning : Bool
  icyMetaint : Option Int
  readLength : Int
  metadataMode : Bool
deriving DecidableEq

/-- radiorec.py lines 99-134: resolve the content type, compute `icyMetaint`,
set `readLength` (1024, overridden by a truthy `icyMetaint`, line 121-123) and
decide metadata mode (`args.icy and icyMetaint`, line 125), which is exactly
the condition under which the sidecar file is opened. -/
def setupSession (icy : Bool) (hs : Headers) : Except PyError SessionSetup :=
  match resolveContentType (getheader hs "Content-Type") with
  | .error e => .error e
  | .ok ctres =>
    match icyMetaintOf icy hs with
    | .error e => .error e
    | .ok m =>
      .ok { ext := ctres.1, ctWarning := ctres.2, icyMetaint := m,
            readLength := if pyTruthy m then m.getD 0 else 1024,
            metadataMode := icy && pyTruthy m }

/-- Which output files exist on disk after the header phase.  All three error
exits (`sys.exit` at line 108, `TypeError` at line 110, `ValueError` at
line 118) happen before the sidecar is opened at line 126 and before the
audio file is opened at line 136, so a failed setup creates nothing; a
successful setup creates the audio file, and the sidecar exactly in metadata
mode. -/
structure Artifacts where
  audioFileCreated : Bool
  sidecarCreated : Bool
deriving DecidableEq

/-- The file artifacts produced by the header phase of `record_worker`. -/
def captureArtifacts (icy : Bool) (hs : Headers) : Artifacts :=
  match setupSession icy hs with
  | .error _ => { audioFileCreated := false, sidecarCreated := false }
  | .ok st => { audioFileCreated := true, sidecarCreated := st.metadataMode }

/-- radiorec.py line 147: strip NUL padding bytes from the metadata block. -/
def stripNul (s : Chars) : Chars :=
  s.filter (fun c => c ≠ '\x00')

/-- Outcome of one metadata step of the demux loop: either the loop continues
to the next audio chunk (with the sidecar lines written in this step) or an
exception propagates and the session aborts. -/
inductive IterationOutcome where
  | continued (sidecarLines : List String)
  | aborted (e : IcyError)
deriving DecidableEq

/-- radiorec.py lines 144-158, the metadata part of one loop iteration in
metadata mode: the length byte times 16 gives the block length; a zero length
skips the read; a block that is empty after NUL-stripping is skipped; an
exception from `parse_icy` propagates (there is no `try` around the loop);
otherwise one formatted line per decoded pair is appended to the sidecar.
The elapsed-minutes display (a float formatted to two decimals) is taken as
an opaque string parameter. -/
def metadataPhase (lengthByte : Nat) (raw : Chars) (elapsed : String) :
    IterationOutcome :=
  let metalength := lengthByte * 16
  if metalength > 0 then
    let metadata := stripNul raw
    if metadata.isEmpty then .continued []
    else
      match parse_icy metadata with
      | .error e => .aborted e
      | .ok pairs =>
        .continued (pairs.map (fun p =>
          "[" ++ elapsed ++ "] " ++ String.mk p.1 ++ ": " ++ String.mk p.2))
  else .continued []

/-- How the streaming loop of `record_worker` was left. -/
inductive StreamExit where
  | completed
  | cancelled
  | errorRaised
deriving DecidableEq

/-- Whether an exception propagates out of the `with` block on this exit. -/
def raisesOut : StreamExit → Bool
  | .errorRaised => true
  | _ => false

/-- The state of the two output files after leaving the streaming loop. -/
structure FileState where
  audioClosed : Bool
  metaFlushedClosed : Bool
deriving DecidableEq

/-- radiorec.py lines 136-162: the audio file is opened in a `with` block, so
it is closed on every exit, exceptions included; the explicit
`metaTarget.flush(); metaTarget.close()` at lines 160-162 runs only when
control falls out of the `with` block normally (loop condition became false),
not when an exception propagates. -/
def teardown (metadataMode : Bool) (exit : StreamExit) : FileState :=
  { audioClosed := true
    metaFlushedClosed := if raisesOut exit then false else metadataMode }

/-- Status of the recording worker thread as observable by the supervisor. -/
inductive EngineStatus where
  | running
  | completed
  | aborted
  | cancelled
deriving DecidableEq

/-- The shared state between `record` (the supervisor, radiorec.py lines
185-194) and `record_worker`: the `threading.Event` cancellation flag and the
engine status.  The worker only ever reads the flag (line 142); only the
supervisor writes it. -/
structure CaptureSystem where
  stoprec : Bool
  engine : EngineStatus
deriving DecidableEq

/-- `stoprec.set()` (radiorec.py line 194): set the one-shot flag; it returns
nothing and raises nothing, whatever the current state. -/
def eventSet (s : CaptureSystem) : CaptureSystem :=
  { s with stoprec := true }

/-! ### Lemmas about the ICY codec -/

theorem splitOnSemi_append (xs rest : Chars) (h : ';' ∉ xs) :
    splitOnSemi (xs ++ ';' :: rest) = xs :: splitOnSemi rest := by
  induction xs with
  | nil => simp [splitOnSemi]
  | cons c cs ih =>
    have hc : ¬(c = ';') := fun hc => h (hc ▸ List.mem_cons_self c cs)
    have hcs : ';' ∉ cs := fun hm => h (List.mem_cons_of_mem _ hm)
    simp [splitOnSemi, hc, ih hcs]

theorem splitOnSemi_no_semi (xs : Chars) (h : ';' ∉ xs) :
    splitOnSemi xs = [xs] := by
  induction xs with
  | nil => rfl
  | cons c cs ih =>
    have hc : ¬(c = ';') := fun hc => h (hc ▸ List.mem_cons_self c cs)
    have hcs : ';' ∉ cs := fun hm => h (List.mem_cons_of_mem _ hm)
    simp [splitOnSemi, hc, ih hcs]

theorem splitFirstEq_append (k v : Chars) (h : '=' ∉ k) :
    splitFirstEq (k ++ '=' :: v) = some (k, v) := by
  induction k with
  | nil => simp [splitFirstEq]
  | cons c cs ih =>
    have hc : ¬(c = '=') := fun hc => h (hc ▸ List.mem_cons_self c cs)
    have hcs : '=' ∉ cs := fun hm => h (List.mem_cons_of_mem _ hm)
    simp [splitFirstEq, hc, ih hcs]

theorem pyStrip_quoted (v : Chars) :
    pyStrip ('\'' :: (v ++ ['\''])) = '\'' :: (v ++ ['\'']) := by
  have h : pyIsSpace '\'' = false := rfl
  simp [pyStrip, List.dropWhile_cons, h]

theorem slice1m1_quoted (v : Chars) : slice1m1 ('\'' :: (v ++ ['\''])) = v := by
  simp [slice1m1]

theorem slice1m1_short (s : Chars) (h : s.length ≤ 2) : slice1m1 s = [] := by
  match s with
  | [] => rfl
  | [a] => rfl
  | [a, b] => rfl
  | a :: b :: c :: t => simp [List.length] at h

theorem dictInsert_fresh (d : List (Chars × Chars)) (k v : Chars)
    (h : ∀ p ∈ d, p.1 ≠ k) : dictInsert d k v = d ++ [(k, v)] := by
  have hany : d.any (fun p => p.1 = k) = false := by
    simp only [List.any_eq_false, decide_eq_true_eq]
    exact fun p hp => h p hp
  simp [dictInsert, hany]

theorem field_not_empty (k w : Chars) : (k ++ '=' :: w).isEmpty = false := by
  cases k <;> rfl

theorem parseFields_encode (m : List (Chars × Chars)) :
    ∀ d : List (Chars × Chars),
    (∀ p ∈ m, ';' ∉ p.1 ∧ '=' ∉ p.1 ∧ ';' ∉ p.2) →
    (∀ p ∈ m, ∀ q ∈ d, q.1 ≠ p.1) →
    m.Pairwise (fun a b => a.1 ≠ b.1) →
    parseFields d (splitOnSemi (encodeIcy m)) = .ok (d ++ m) := by
  induction m with
  | nil =>
    intro d _ _ _
    simp [encodeIcy, splitOnSemi, parseFields]
  | cons p m ih =>
    intro d hc hnew hnodup
    obtain ⟨k, v⟩ := p
    obtain ⟨hksemi, hkeq, hvsemi⟩ := hc (k, v) (List.mem_cons_self _ _)
    have hnos : ';' ∉ (k ++ '=' :: '\'' :: (v ++ ['\''])) := by
      intro hmem
      simp only [List.mem_append, List.mem_cons, List.mem_singleton] at hmem
      rcases hmem with h1 | h1 | h1 | h1 | h1
      · exact hksemi h1
      · exact absurd h1 (by decide)
      · exact absurd h1 (by decide)
      · exact hvsemi h1
      · exact absurd h1 (by decide)
    have henc : encodeIcy ((k, v) :: m) =
        (k ++ '=' :: '\'' :: (v ++ ['\''])) ++ ';' :: encodeIcy m := by
      simp [encodeIcy, encodePair]
    have hpair := List.pairwise_cons.mp hnodup
    have hfresh : ∀ p ∈ d, p.1 ≠ k :=
      fun q hq => hnew (k, v) (List.mem_cons_self _ _) q hq
    rw [henc, splitOnSemi_append _ _ hnos]
    have hfield : (k ++ '=' :: '\'' :: (v ++ ['\''])).isEmpty = false :=
      field_not_empty k _
    simp only [parseFields, hfield, Bool.false_eq_true, if_false,
      splitFirstEq_append k _ hkeq, pyStrip_quoted, slice1m1_quoted,
      dictInsert_fresh d k v hfresh]
    have hc2 : ∀ p ∈ m, ';' ∉ p.1 ∧ '=' ∉ p.1 ∧ ';' ∉ p.2 :=
      fun p hp => hc p (List.mem_cons_of_mem _ hp)
    have hnew2 : ∀ p ∈ m, ∀ q ∈ d ++ [(k, v)], q.1 ≠ p.1 := by
      intro p hp q hq
      rcases List.mem_append.mp hq with hq1 | hq1
      · exact hnew p (List.mem_cons_of_mem _ hp) q hq1
      · rcases List.mem_singleton.mp hq1 with rfl
        exact hpair.1 p hp
    rw [ih (d ++ [(k, v)]) hc2 hnew2 hpair.2]
    simp

/-- C7: ICY codec round-trip.  For any mapping (association list with
pairwise-distinct keys) of ASCII keys containing no semicolon and no equals
sign to values containing no semicolon, encoding each pair as
key=(quote)value(quote) followed by a semicolon and concatenating, then
decoding with `parse_icy`, reproduces the original mapping exactly. -/
theorem icy_codec_roundtrip (m : List (Chars × Chars))
    (hnodup : m.Pairwise (fun a b => a.1 ≠ b.1))
    (hascii : ∀ p ∈ m, ∀ c ∈ p.1, c.toNat < 128)
    (hshape : ∀ p ∈ m, ';' ∉ p.1 ∧ '=' ∉ p.1 ∧ ';' ∉ p.2) :
    parse_icy (encodeIcy m) = .ok m := by
  have h := parseFields_encode m [] hshape (fun p _ q hq => absurd hq (List.not_mem_nil q)) hnodup
  simpa [parse_icy] using h

/-- Witness for C7 at a concrete two-entry mapping. -/
theorem icy_codec_roundtrip_witness :
    parse_icy (encodeIcy [("StreamTitle".data, "Artist - Song".data), ("StreamUrl".data, [])]) =
      .ok [("StreamTitle".data, "Artist - Song".data), ("StreamUrl".data, [])] :=
  icy_codec_roundtrip _ (by decide) (by decide) (by decide)

/-- C8: decoding the metadata block StreamTitle='Artist - Song';StreamUrl='';
yields exactly the two-entry mapping with StreamTitle bound to Artist - Song
and StreamUrl bound to the empty string; the empty trailing field after the
final semicolon is ignored. -/
theorem icy_example_block :
    parse_icyStr "StreamTitle='Artist - Song';StreamUrl='';" =
      .ok [("StreamTitle", "Artist - Song"), ("StreamUrl", "")] := rfl

/-- C10: for every field whose raw value (the text after the first equals
sign) has length at most 2 after trimming surrounding whitespace, the
positional strip of the first and last characters maps the key to the empty
string; the decoder returns normally (no error) and never a partial value. -/
theorem short_value_yields_empty (k v : Chars)
    (hkeq : '=' ∉ k) (hksemi : ';' ∉ k) (hvsemi : ';' ∉ v)
    (hshort : (pyStrip v).length ≤ 2) :
    parse_icy (k ++ '=' :: v) = .ok [(k, [])] := by
  have hnos : ';' ∉ (k ++ '=' :: v) := by
    intro hmem
    simp only [List.mem_append, List.mem_cons] at hmem
    rcases hmem with h1 | h1 | h1
    · exact hksemi h1
    · exact absurd h1 (by decide)
    · exact hvsemi h1
  rw [parse_icy, splitOnSemi_no_semi _ hnos]
  simp [parseFields, field_not_empty, splitFirstEq_append k v hkeq,
    slice1m1_short _ hshort, dictInsert]

/-- Witness for C10: the raw value has length 2 (a bare quote pair), the key
is mapped to the empty string. -/
theorem short_value_yields_empty_witness :
    parse_icy ("StreamUrl".data ++ '=' :: "''".data) = .ok [("StreamUrl".data, [])] :=
  short_value_yields_empty _ _ (by decide) (by decide) (by decide) (by decide)

/-! ### Lemmas about the header phase -/

theorem setupSession_fields (icy : Bool) (hs : Headers) (st : SessionSetup)
    (h : setupSession icy hs = .ok st) :
    icyMetaintOf icy hs = .ok st.icyMetaint ∧
    st.metadataMode = (icy && pyTruthy st.icyMetaint) ∧
    st.readLength = (if pyTruthy st.icyMetaint then st.icyMetaint.getD 0 else 1024) := by
  unfold setupSession at h
  split at h
  · exact absurd h (by simp)
  · split at h
    · exact absurd h (by simp)
    · injection h with h2
      subst h2
      exact ⟨by assumption, rfl, rfl⟩

/-- C1 counterexample: with ICY metadata requested and the server advertising
icy-metaint: -16 (which parses as the negative integer -16, not a valid
positive interval), the sidecar file is nevertheless created, refuting the
only-if direction of the claim. -/
theorem sidecar_negative_metaint_counterexample :
    pyInt "-16" = some (-16) ∧ ¬(0 < (-16 : Int)) ∧
    (captureArtifacts true
        [("Content-Type", "audio/mpeg"), ("icy-metaint", "-16")]).sidecarCreated = true :=
  ⟨rfl, by decide, rfl⟩

/-- C1 amended: the sidecar file exists if and only if the header phase
succeeded, ICY metadata was requested, and the icy-metaint header value
parsed as a nonzero integer (Python truthiness) — so a negative interval also
creates the sidecar, while a non-numeric one aborts the capture with no files
at all. -/
theorem sidecar_presence_law (icy : Bool) (hs : Headers) :
    (captureArtifacts icy hs).sidecarCreated =
      (match setupSession icy hs with
       | .ok st => icy && pyTruthy st.icyMetaint
       | .error _ => false) := by
  unfold captureArtifacts
  cases h : setupSession icy hs with
  | error e => rfl
  | ok st => exact (setupSession_fields icy hs st h).2.1

/-- C2 counterexample: a negative icy-metaint header (-16) puts the session
into metadata-interleaved mode with read size -16, where the claim requires
metadata mode off and read size 1024. -/
theorem metadata_mode_negative_counterexample :
    (setupSession true [("Content-Type", "audio/mpeg"), ("icy-metaint", "-16")]).map
        (fun st => (st.metadataMode, st.readLength)) = .ok (true, -16) := rfl

theorem icyMetaintOf_parsed (hs : Headers) (s : String)
    (hc : (icy_header_keys hs).contains "icy-metaint" = true)
    (hg : getheader hs "icy-metaint" = some s) :
    icyMetaintOf true hs =
      (match pyInt s with
       | none => .error .valueError
       | some v => .ok (some v)) := by
  unfold icyMetaintOf
  rw [if_pos rfl, if_pos hc, hg]

/-- C2 amended: with useIcyMetadata true, (1) when the exact lowercase name
icy-metaint occurs among the response header names and its value (looked up
case-insensitively, first occurrence) parses as an integer v, every session
the header phase produces has metadata mode on with read size v when v is
nonzero (so a negative v gives a negative read size, not 1024) and metadata
mode off with read size 1024 when v is zero; (2) when the exact name does not
occur, metadata mode is off and the read size is 1024; (3) when the value is
non-numeric, int() raises ValueError and the header phase produces no session
at all. -/
theorem metadata_mode_read_length :
    (∀ (hs : Headers) (st : SessionSetup) (s : String) (v : Int),
        setupSession true hs = .ok st →
        (icy_header_keys hs).contains "icy-metaint" = true →
        getheader hs "icy-metaint" = some s →
        pyInt s = some v →
        (v ≠ 0 → st.metadataMode = true ∧ st.readLength = v) ∧
          (v = 0 → st.metadataMode = false ∧ st.readLength = 1024)) ∧
    (∀ (hs : Headers) (st : SessionSetup),
        setupSession true hs = .ok st →
        (icy_header_keys hs).contains "icy-metaint" = false →
        st.metadataMode = false ∧ st.readLength = 1024) ∧
    (∀ (hs : Headers) (s : String),
        (icy_header_keys hs).contains "icy-metaint" = true →
        getheader hs "icy-metaint" = some s →
        pyInt s = none →
        ∀ st : SessionSetup, setupSession true hs ≠ .ok st) := by
  refine ⟨?_, ?_, ?_⟩
  · intro hs st s v hok hc hg hp
    obtain ⟨hm, hmode, hlen⟩ := setupSession_fields true hs st hok
    rw [icyMetaintOf_parsed hs s hc hg, hp] at hm
    injection hm with hm2
    constructor
    · intro hv
      constructor
      · rw [hmode, ← hm2]; simp [pyTruthy, hv]
      · rw [hlen, ← hm2]; simp [pyTruthy, hv]
    · intro hv
      subst hv
      exact ⟨by rw [hmode, ← hm2]; rfl, by rw [hlen, ← hm2]; rfl⟩
  · intro hs st hok hc
    obtain ⟨hm, hmode, hlen⟩ := setupSession_fields true hs st hok
    unfold icyMetaintOf at hm
    rw [if_pos rfl, if_neg (by intro h2; rw [hc] at h2; exact Bool.noConfusion h2)] at hm
    injection hm with hm2
    exact ⟨by rw [hmode, ← hm2]; rfl, by rw [hlen, ← hm2]; rfl⟩
  · intro hs s hc hg hp st hok
    have hm := (setupSession_fields true hs st hok).1
    rw [icyMetaintOf_parsed hs s hc hg, hp] at hm
    simp at hm

/-- Witness for C2: a server advertising icy-metaint: 8192 forces metadata
mode with read size 8192, and one advertising the non-numeric value junk
yields no session. -/
theorem metadata_mode_read_length_witness :
    ((SessionSetup.mk ".mp3" false (some 8192) 8192 true).metadataMode = true ∧
        (SessionSetup.mk ".mp3" false (some 8192) 8192 true).readLength = 8192) ∧
      setupSession true [("Content-Type", "audio/mpeg"), ("icy-metaint", "junk")] ≠
        .ok (SessionSetup.mk ".mp3" false none 1024 false) :=
  ⟨(metadata_mode_read_length.1
      [("Content-Type", "audio/mpeg"), ("icy-metaint", "8192")]
      (SessionSetup.mk ".mp3" false (some 8192) 8192 true)
      "8192" 8192 rfl rfl rfl rfl).1 (by decide),
    metadata_mode_read_length.2.2
      [("Content-Type", "audio/mpeg"), ("icy-metaint", "junk")]
      "junk" rfl rfl rfl
      (SessionSetup.mk ".mp3" false none 1024 false)⟩

/-- C3 counterexample: with the Content-Type header absent, the resolver does
not return the fallback extension with a warning; the warning message string
concatenation with None raises TypeError. -/
theorem resolver_missing_header_counterexample :
    resolveContentType none = .error .typeError ∧
      resolveContentType none ≠ .ok (".mp3", true) := by
  refine ⟨rfl, fun h => ?_⟩
  rw [show resolveContentType none = Except.error PyError.typeError from rfl] at h
  simp at h

/-- C3 amended: the resolver is total on every present Content-Type string
value except audio/x-mpegurl: the six table entries map to their extensions
without warning, audio/x-mpegurl fails with UnsupportedFormat, and every
other present value maps to the fallback .mp3 with a warning; a missing
(absent) Content-Type header, however, raises TypeError instead of falling
back. -/
theorem resolver_totality :
    resolveContentType (some "audio/mpeg") = .ok (".mp3", false) ∧
    resolveContentType (some "application/aacp") = .ok (".aac", false) ∧
    resolveContentType (some "audio/aacp") = .ok (".aac", false) ∧
    resolveContentType (some "audio/aac") = .ok (".aac", false) ∧
    resolveContentType (some "application/ogg") = .ok (".ogg", false) ∧
    resolveContentType (some "audio/ogg") = .ok (".ogg", false) ∧
    resolveContentType (some "audio/x-mpegurl") = .error .unsupportedFormat ∧
    resolveContentType none = .error .typeError ∧
    ∀ ct : String,
      ct ∉ ["audio/mpeg", "application/aacp", "audio/aacp", "audio/aac",
            "application/ogg", "audio/ogg", "audio/x-mpegurl"] →
      resolveContentType (some ct) = .ok (".mp3", true) := by
  refine ⟨rfl, rfl, rfl, rfl, rfl, rfl, rfl, rfl, fun ct hct => ?_⟩
  have h1 : ¬(ct = "audio/mpeg") := fun he => hct (by simp [he])
  have h2 : ¬(ct = "application/aacp") := fun he => hct (by simp [he])
  have h3 : ¬(ct = "audio/aacp") := fun he => hct (by simp [he])
  have h4 : ¬(ct = "audio/aac") := fun he => hct (by simp [he])
  have h5 : ¬(ct = "application/ogg") := fun he => hct (by simp [he])
  have h6 : ¬(ct = "audio/ogg") := fun he => hct (by simp [he])
  have h7 : ¬(ct = "audio/x-mpegurl") := fun he => hct (by simp [he])
  simp [resolveContentType, h1, h2, h3, h4, h5, h6, h7]

/-- Witness for C3 applying the fallback clause at the unknown value
text/html. -/
theorem resolver_totality_witness :
    resolveContentType (some "text/html") = .ok (".mp3", true) :=
  resolver_totality.2.2.2.2.2.2.2.2 "text/html" (by decide)

/-- C4 counterexample: a metadata block violating the key=value shape does
not get logged and skipped with the capture continuing; the exception
propagates and the iteration outcome is an abort of the session. -/
theorem malformed_metadata_aborts_counterexample :
    metadataPhase 1 "StreamTitle - no equals".data "0.00" =
      .aborted .malformedField := rfl

/-- C4 amended: a metadata block that is nonempty after NUL-stripping and on
which `parse_icy` raises makes the exception propagate out of the demux loop,
aborting the capture session (the engine does not skip the frame and
continue); only a zero length byte or a block emptied by NUL-stripping is
skipped. -/
theorem malformed_metadata_propagates (lengthByte : Nat) (raw : Chars)
    (elapsed : String) (e : IcyError) (hlen : 0 < lengthByte)
    (hne : (stripNul raw).isEmpty = false)
    (hparse : parse_icy (stripNul raw) = .error e) :
    metadataPhase lengthByte raw elapsed = .aborted e := by
  have hpos : lengthByte * 16 > 0 := by omega
  simp [metadataPhase, hpos, hne, hparse]

/-- Witness for C4 at length byte 1 and the shape-violating block
badblock. -/
theorem malformed_metadata_propagates_witness :
    metadataPhase 1 "badblock".data "0.00" = .aborted .malformedField :=
  malformed_metadata_propagates 1 _ _ _ (by decide) (by decide) rfl

/-- C5 counterexample: when a read/write or metadata-parse error propagates
out of the streaming loop with metadata mode active, the audio file is closed
by the with-block but the sidecar file is not flushed and closed. -/
theorem teardown_error_counterexample :
    (teardown true .errorRaised).audioClosed = true ∧
      (teardown true .errorRaised).metaFlushedClosed = false :=
  ⟨rfl, rfl⟩

/-- C5 amended: on every exit from the streaming state the audio output file
is closed; the sidecar file (when metadata mode was active) is flushed and
closed on the non-exceptional exits (normal completion and cooperative
cancellation), but not when an error propagates out of the loop. -/
theorem teardown_closes_files (metadataMode : Bool) (exit : StreamExit) :
    (teardown metadataMode exit).audioClosed = true ∧
      (raisesOut exit = false →
        (teardown metadataMode exit).metaFlushedClosed = metadataMode) := by
  refine ⟨rfl, fun h => ?_⟩
  simp [teardown, h]

/-- Witness for C5 at a cancellation exit with metadata mode active. -/
theorem teardown_closes_files_witness :
    (teardown true .cancelled).audioClosed = true ∧
      (raisesOut .cancelled = false →
        (teardown true .cancelled).metaFlushedClosed = true) :=
  teardown_closes_files true .cancelled

/-- C6: when the response Content-Type is audio/x-mpegurl the header phase
aborts with UnsupportedFormat, and neither the audio file nor the sidecar
file is created (the exit happens before either file is opened). -/
theorem unsupported_playlist_aborts (icy : Bool) (hs : Headers)
    (h : getheader hs "Content-Type" = some "audio/x-mpegurl") :
    setupSession icy hs = .error .unsupportedFormat ∧
      captureArtifacts icy hs =
        { audioFileCreated := false, sidecarCreated := false } := by
  have hct : resolveContentType (getheader hs "Content-Type") =
      .error .unsupportedFormat := by
    rw [h]
    rfl
  have hsetup : setupSession icy hs = .error .unsupportedFormat := by
    unfold setupSession
    rw [hct]
  exact ⟨hsetup, by unfold captureArtifacts; rw [hsetup]⟩

/-- Witness for C6 at a response whose only header is the unsupported
playlist content type. -/
theorem unsupported_playlist_aborts_witness :
    setupSession true [("Content-Type", "audio/x-mpegurl")] =
        .error .unsupportedFormat ∧
      captureArtifacts true [("Content-Type", "audio/x-mpegurl")] =
        { audioFileCreated := false, sidecarCreated := false } :=
  unsupported_playlist_aborts true _ rfl

/-- C9: signalling cancellation is idempotent and harmless: setting the
one-shot flag twice equals setting it once, setting it never changes the
engine status (in particular after Completed or Aborted), and setting it when
it is already set changes nothing at all. -/
theorem cancellation_idempotent (s : CaptureSystem) :
    eventSet (eventSet s) = eventSet s ∧
      (eventSet s).engine = s.engine ∧
      (s.stoprec = true → eventSet s = s) := by
  refine ⟨rfl, rfl, fun h => ?_⟩
  cases s
  simp_all [eventSet]

/-- Witness for C9 on an already-signalled system whose engine has
completed. -/
theorem cancellation_idempotent_witness :
    eventSet (eventSet ⟨true, .completed⟩) = eventSet ⟨true, .completed⟩ ∧
      (eventSet ⟨true, .completed⟩).engine =
        CaptureSystem.engine ⟨true, .completed⟩ ∧
      ((⟨true, .completed⟩ : CaptureSystem).stoprec = true →
        eventSet ⟨true, .completed⟩ = (⟨true, .completed⟩ : CaptureSystem)) :=
  cancellation_idempotent ⟨true, .completed⟩
